import Mathlib

/-!
Shallow embedding of `src/extensions/markdown/src/extension.ts`, the markdown
extension's activation coordinator.  Host collaborators (the vscode API, the
preview content provider's `isMarkdownFile`/`getMarkdownUri`, the
table-of-contents lookup) live outside this module and are modelled as
abstract function parameters gathered in host structures.  Each asynchronous
handler is modelled as a pure function returning the ordered list of host
calls it makes together with the settlement of its returned promise
(resolved or rejected).
-/

namespace MDExt

/-- A vscode URI, reduced to the components this module inspects. -/
structure Uri where
  scheme : String
  fsPath : String
deriving DecidableEq, Repr

/-- Abstract host URI operations: `vscode.Uri.parse`, `vscode.Uri.file`, and
Node's `path.join`. -/
structure UriHost where
  parse : String → Uri
  file : String → Uri
  joinPath : String → String → String

/-- `resolveExtensionResources`: a contributed path that parses to a URI that
already carries a scheme is used verbatim; a bare path is joined with the
contributing extension's install directory and turned into a file URI. -/
def resolveExtensionResources (h : UriHost) (extensionPath stylePath : String) : Uri :=
  if (h.parse stylePath).scheme ≠ "" then h.parse stylePath
  else h.file (h.joinPath extensionPath stylePath)

/-- Index of the last dot in a list of characters, if any. -/
def lastDot : List Char → Option Nat
  | [] => none
  | c :: cs =>
    match lastDot cs with
    | some i => some (i + 1)
    | none => if c = '.' then some 0 else none

/-- Model of Node's `path.extname`: the suffix of the basename starting at its
last dot, or the empty string when the basename has no dot or only a leading
dot.  The basename is the longest suffix free of path separators. -/
def extname (p : String) : String :=
  let b := (p.toList.reverse.takeWhile (fun c => c ≠ '/')).reverse
  match lastDot b with
  | some i => if i = 0 then "" else String.mk (b.drop i)
  | none => ""

/-- Settlement of a handler's returned promise. -/
inductive Outcome
  | resolved
  | rejected
deriving DecidableEq, Repr

/-- A text document, reduced to the fields the coordinator inspects. -/
structure Document where
  uri : Uri
  languageId : String
deriving DecidableEq, Repr

/-- Host calls made by the `_markdown.openDocumentLink` handler, in order. -/
inductive LinkCall
  | openDoc (fsPath : String)
  | showDoc (fsPath : String)
  | revealAtTop (line : Nat)
  | execVSCodeOpen (fsPath : String)
deriving DecidableEq, Repr

/-- Environment for `_markdown.openDocumentLink`: the active editor's document
if any, whether `openTextDocument` succeeds on a given file path, whether the
generic `vscode.open` command succeeds, the `isMarkdownFile` predicate, and the
table-of-contents lookup (keyed by the document's file path; `none` models the
NaN not-found result). -/
structure LinkHost where
  activeEditor : Option Document
  isMarkdownFile : Document → Bool
  opens : String → Bool
  vscodeOpen : String → Bool
  tocLookup : String → String → Option Nat

/-- The guard `vscode.window.activeTextEditor && isMarkdownFile(doc) &&
doc.uri.fsPath === path` inside `tryOpen`. -/
def activeEditorMatches (h : LinkHost) (p : String) : Bool :=
  match h.activeEditor with
  | some doc => h.isMarkdownFile doc && doc.uri.fsPath == p
  | none => false

/-- `tryRevealLine`: with a truthy fragment, look it up in the table of
contents of the shown document and reveal that line at the top of the
viewport when found; a not-found (NaN) lookup is a silent no-op. -/
def tryRevealLine (h : LinkHost) (p : String) (fragment : String) : List LinkCall :=
  if fragment ≠ "" then
    match h.tocLookup p fragment with
    | some line => [LinkCall.revealAtTop line]
    | none => []
  else []

/-- `tryOpen`: when the active editor already shows a markdown document at the
given path, only try to reveal the fragment; otherwise open and show the
document and then try to reveal the fragment.  The promise rejects exactly
when that open fails. -/
def tryOpen (h : LinkHost) (fragment : String) (p : String) : List LinkCall × Outcome :=
  if activeEditorMatches h p then
    (tryRevealLine h p fragment, Outcome.resolved)
  else if h.opens p then
    (LinkCall.openDoc p :: LinkCall.showDoc p :: tryRevealLine h p fragment, Outcome.resolved)
  else
    ([LinkCall.openDoc p], Outcome.rejected)

/-- The `.catch` handler of `_markdown.openDocumentLink`: retry with a `.md`
suffix when the original path had no extension, otherwise delegate to the
generic `vscode.open` command.  Neither branch has a further catch, so a
failure here rejects. -/
def openDocumentLinkFallback (h : LinkHost) (fragment : String) (p : String) :
    List LinkCall × Outcome :=
  if extname p = "" then
    tryOpen h fragment (p ++ ".md")
  else
    ([LinkCall.execVSCodeOpen p],
      if h.vscodeOpen p then Outcome.resolved else Outcome.rejected)

/-- Payload of the `_markdown.openDocumentLink` command. -/
structure OpenDocumentLinkArgs where
  path : String
  fragment : String
deriving DecidableEq, Repr

/-- The `_markdown.openDocumentLink` handler: `tryOpen(args.path)` with the
fallback chain attached via `.catch`. -/
def openDocumentLink (h : LinkHost) (args : OpenDocumentLinkArgs) :
    List LinkCall × Outcome :=
  if (tryOpen h args.fragment args.path).2 = Outcome.resolved then
    tryOpen h args.fragment args.path
  else
    ((tryOpen h args.fragment args.path).1 ++
        (openDocumentLinkFallback h args.fragment args.path).1,
      (openDocumentLinkFallback h args.fragment args.path).2)

/-- Abstract collaborators used by the event subscriptions: `isMarkdownFile`
and `getMarkdownUri` live in previewContentProvider.ts, outside this module. -/
structure EventHost where
  isMarkdownFile : Document → Bool
  getMarkdownUri : Uri → Uri

/-- Host calls made by the event-subscription handlers. -/
inductive HostCall
  | updatePreview (uri : Uri)
  | logEvent (markdownFile : Uri)
  | postPreviewMessage (uri : Uri) (line : Nat)
deriving DecidableEq, Repr

/-- The `onDidSaveTextDocument` subscription: refresh the preview derived from
the saved document when it is a markdown file. -/
def onDidSaveTextDocument (h : EventHost) (document : Document) : List HostCall :=
  if h.isMarkdownFile document then
    [HostCall.updatePreview (h.getMarkdownUri document.uri)]
  else []

/-- A text-document change event, reduced to the field the handler reads. -/
structure TextDocumentChangeEvent where
  document : Document
deriving DecidableEq, Repr

/-- The `onDidChangeTextDocument` subscription: refresh the preview derived
from the changed document when it is a markdown file. -/
def onDidChangeTextDocument (h : EventHost) (event : TextDocumentChangeEvent) :
    List HostCall :=
  if h.isMarkdownFile event.document then
    [HostCall.updatePreview (h.getMarkdownUri event.document.uri)]
  else []

/-- A zero-based editor position. -/
structure Position where
  line : Nat
  character : Nat
deriving DecidableEq, Repr

/-- An editor selection. -/
structure Selection where
  anchor : Position
  active : Position
deriving DecidableEq, Repr

/-- A text editor, reduced to its document. -/
structure TextEditor where
  document : Document
deriving DecidableEq, Repr

/-- A selection-change event.  The host guarantees `selections` is nonempty,
matching the source's unguarded `event.selections[0]`. -/
structure TextEditorSelectionChangeEvent where
  textEditor : TextEditor
  selections : List Selection
deriving DecidableEq, Repr

/-- The `onDidChangeTextEditorSelection` subscription: on a markdown document,
log the event and post the first selection's active line to the preview
surface; the head default is unreachable because the host guarantees at least
one selection. -/
def onDidChangeTextEditorSelection (h : EventHost)
    (event : TextEditorSelectionChangeEvent) : List HostCall :=
  if h.isMarkdownFile event.textEditor.document then
    [HostCall.logEvent (h.getMarkdownUri event.textEditor.document.uri),
      HostCall.postPreviewMessage (h.getMarkdownUri event.textEditor.document.uri)
        ((event.selections.headD ⟨⟨0, 0⟩, ⟨0, 0⟩⟩).active.line)]
  else []

/-- Host calls made by the `_markdown.didClick` handler, in order. -/
inductive ClickCall
  | openDoc (u : Uri)
  | showDoc (u : Uri)
  | revealLine (lineNumber : Int) (atKey : String)
  | setSelection (anchorLine : Int) (anchorCharacter : Nat)
      (activeLine : Int) (activeCharacter : Nat)
deriving DecidableEq, Repr

/-- Environment for `_markdown.didClick`: URI parsing and decoding, and
whether `openTextDocument` succeeds on a given URI. -/
structure ClickHost where
  parse : String → Uri
  decodeURIComponent : String → String
  opens : Uri → Bool

/-- The `_markdown.didClick` handler: open and show the clicked document,
execute `revealLine` with the floor of the fractional line centered, then
collapse the selection to the start of that line. -/
def didClick (h : ClickHost) (uri : String) (line : ℚ) : List ClickCall × Outcome :=
  if h.opens (h.parse (h.decodeURIComponent uri)) then
    ([ClickCall.openDoc (h.parse (h.decodeURIComponent uri)),
      ClickCall.showDoc (h.parse (h.decodeURIComponent uri)),
      ClickCall.revealLine ⌊line⌋ "center",
      ClickCall.setSelection ⌊line⌋ 0 ⌊line⌋ 0], Outcome.resolved)
  else
    ([ClickCall.openDoc (h.parse (h.decodeURIComponent uri))], Outcome.rejected)

/-- A manifest contribution value as the loop's truthiness and
`Array.isArray` checks distinguish it: absent, present but falsy, present and
truthy but not an array, or an array of paths. -/
inductive ContribVal
  | absent
  | falsy
  | notArray
  | arr (items : List String)
deriving DecidableEq, Repr

/-- The manifest keys the contributions loop reads. -/
structure MarkdownContributes where
  previewStyles : ContribVal
  previewScripts : ContribVal
  markdownItPlugins : Bool
deriving DecidableEq, Repr

/-- A plugin-declaring extension's exports object, possibly lacking the
`extendMarkdownIt` function (identified here by a number). -/
structure ExtensionExports where
  extendMarkdownIt : Option Nat
deriving DecidableEq, Repr

/-- An installed extension record as the contributions loop sees it:
`contributes` is `none` when `packageJSON` or its `contributes` block is
missing; `activates` tells whether `extension.activate()` resolves; `exports`
is the exports object exposed after activation. -/
structure InstalledExtension where
  extensionPath : String
  contributes : Option MarkdownContributes
  activates : Bool
  exports : Option ExtensionExports
deriving DecidableEq, Repr

/-- Environment for the contributions loop: URI operations plus whether
registering a given contributed item throws (the body of each per-item
try/catch). -/
structure ActivateHost where
  uriHost : UriHost
  styleFails : String → String → Bool
  scriptFails : String → String → Bool

/-- Styles one extension's `markdown.previewStyles` contribution registers:
each item resolves through `resolveExtensionResources`, and a throwing item is
swallowed by its try/catch. -/
def stylesOf (h : ActivateHost) (e : InstalledExtension) : List Uri :=
  match e.contributes with
  | none => []
  | some c =>
    match c.previewStyles with
    | ContribVal.arr items =>
      items.filterMap fun s =>
        if h.styleFails e.extensionPath s then none
        else some (resolveExtensionResources h.uriHost e.extensionPath s)
    | _ => []

/-- Scripts one extension's `markdown.previewScripts` contribution registers,
with the same per-item try/catch as styles. -/
def scriptsOf (h : ActivateHost) (e : InstalledExtension) : List Uri :=
  match e.contributes with
  | none => []
  | some c =>
    match c.previewScripts with
    | ContribVal.arr items =>
      items.filterMap fun s =>
        if h.scriptFails e.extensionPath s then none
        else some (resolveExtensionResources h.uriHost e.extensionPath s)
    | _ => []

/-- All styles registered by the contributions loop over `vscode.extensions.all`. -/
def registeredStyles (h : ActivateHost) (exts : List InstalledExtension) : List Uri :=
  exts.flatMap (stylesOf h)

/-- All scripts registered by the contributions loop over `vscode.extensions.all`. -/
def registeredScripts (h : ActivateHost) (exts : List InstalledExtension) : List Uri :=
  exts.flatMap (scriptsOf h)

/-- The plugin one extension's `markdown.markdownItPlugins` hook registers
with the engine: registration happens only when the flag is truthy, the
extension's activation resolves, its exports object exists and exposes
`extendMarkdownIt`. -/
def pluginOf (e : InstalledExtension) : Option Nat :=
  match e.contributes with
  | none => none
  | some c =>
    if c.markdownItPlugins then
      if e.activates then
        match e.exports with
        | some ex => ex.extendMarkdownIt
        | none => none
      else none
    else none

/-- All plugins the contributions loop registers with the rendering engine. -/
def pluginActivations (exts : List InstalledExtension) : List Nat :=
  exts.filterMap pluginOf

/-- The shape of the markdown extension's own package metadata. -/
structure PackageJson where
  name : String
  version : String
  aiKey : String
deriving DecidableEq, Repr

/-- The host's record for an extension looked up by id, whose `packageJSON`
may be missing. -/
structure HostExtensionInfo where
  packageJSON : Option PackageJson
deriving DecidableEq, Repr

/-- Environment for `getPackageInfo`: the result of
`vscode.extensions.getExtension` on this extension's id. -/
structure TelemetryHost where
  getExtension : Option HostExtensionInfo

/-- `getPackageInfo`: the package metadata when the host resolves the
extension record and it has a `packageJSON`, otherwise `null`. -/
def getPackageInfo (h : TelemetryHost) : Option PackageJson :=
  match h.getExtension with
  | some e =>
    match e.packageJSON with
    | some pj => some ⟨pj.name, pj.version, pj.aiKey⟩
    | none => none
  | none => none

/-- The telemetry reporter, identified by its constructor arguments. -/
structure TelemetryReporter where
  name : String
  version : String
  aiKey : String
deriving DecidableEq, Repr

/-- A disposable pushed onto `context.subscriptions` by the telemetry step. -/
inductive Subscription
  | telemetry (r : TelemetryReporter)
deriving DecidableEq, Repr

/-- The telemetry step at the top of `activate`: construct a reporter only
when `getPackageInfo` resolved, and push it onto the subscription list when
constructed. -/
def activateTelemetry (h : TelemetryHost) : Option TelemetryReporter × List Subscription :=
  match getPackageInfo h with
  | some pi => (some ⟨pi.name, pi.version, pi.aiKey⟩,
      [Subscription.telemetry ⟨pi.name, pi.version, pi.aiKey⟩])
  | none => (none, [])

/-! Helper lemmas shared across claims. -/

/-- The trace of `tryRevealLine` never contains a generic-open call. -/
lemma execVSCodeOpen_not_mem_tryRevealLine (h : LinkHost) (p fragment v : String) :
    LinkCall.execVSCodeOpen v ∉ tryRevealLine h p fragment := by
  unfold tryRevealLine
  split_ifs
  · cases h.tocLookup p fragment <;> simp
  · simp

/-- The trace of `tryOpen` never contains a generic-open call. -/
lemma execVSCodeOpen_not_mem_tryOpen (h : LinkHost) (fragment p v : String) :
    LinkCall.execVSCodeOpen v ∉ (tryOpen h fragment p).1 := by
  unfold tryOpen
  split_ifs <;> simp [execVSCodeOpen_not_mem_tryRevealLine]

/-- `tryOpen` rejects exactly when the active editor does not already show the
path as a markdown document and `openTextDocument` fails on it. -/
lemma tryOpen_rejected_iff (h : LinkHost) (fragment p : String) :
    (tryOpen h fragment p).2 = Outcome.rejected ↔
      activeEditorMatches h p = false ∧ h.opens p = false := by
  unfold tryOpen
  split_ifs <;> simp_all

/-- A style `filterMap` whose per-item guard never fires registers every item. -/
lemma filterMap_styles_no_fail (h : ActivateHost) (ep : String) (l : List String)
    (hok : ∀ s ∈ l, h.styleFails ep s = false) :
    (l.filterMap fun s =>
      if h.styleFails ep s then none
      else some (resolveExtensionResources h.uriHost ep s)) =
      l.map (resolveExtensionResources h.uriHost ep) := by
  induction l with
  | nil => rfl
  | cons a t ih =>
    have ha : h.styleFails ep a = false := hok a (List.mem_cons_self a t)
    have ht : ∀ s ∈ t, h.styleFails ep s = false :=
      fun s hs => hok s (List.mem_cons_of_mem a hs)
    simp [List.filterMap_cons, ha, ih ht]

/-- A script `filterMap` whose per-item guard never fires registers every item. -/
lemma filterMap_scripts_no_fail (h : ActivateHost) (ep : String) (l : List String)
    (hok : ∀ s ∈ l, h.scriptFails ep s = false) :
    (l.filterMap fun s =>
      if h.scriptFails ep s then none
      else some (resolveExtensionResources h.uriHost ep s)) =
      l.map (resolveExtensionResources h.uriHost ep) := by
  induction l with
  | nil => rfl
  | cons a t ih =>
    have ha : h.scriptFails ep a = false := hok a (List.mem_cons_self a t)
    have ht : ∀ s ∈ t, h.scriptFails ep s = false :=
      fun s hs => hok s (List.mem_cons_of_mem a hs)
    simp [List.filterMap_cons, ha, ih ht]

/-! Concrete hosts and records used by counterexamples and witnesses. -/

/-- A link environment in which no document open ever succeeds and no editor
is active. -/
def hRejectAll : LinkHost where
  activeEditor := none
  isMarkdownFile := fun _ => false
  opens := fun _ => false
  vscodeOpen := fun _ => false
  tocLookup := fun _ _ => none

/-- A link environment whose active editor shows `/a/b.md` as markdown and
whose table of contents resolves the fragment `intro` to line 5. -/
def hActiveIntro : LinkHost where
  activeEditor := some ⟨⟨"file", "/a/b.md"⟩, "markdown"⟩
  isMarkdownFile := fun d => d.languageId == "markdown"
  opens := fun _ => false
  vscodeOpen := fun _ => false
  tocLookup := fun p f => if p == "/a/b.md" && f == "intro" then some 5 else none

/-- A concrete URI host: one recognised absolute URL, file URIs, and
slash-joined paths. -/
def uriHostW : UriHost where
  parse := fun s => if s == "https://a/x.css" then ⟨"https", "a/x.css"⟩ else ⟨"", s⟩
  file := fun p => ⟨"file", p⟩
  joinPath := fun a b => a ++ "/" ++ b

/-- A concrete event host: markdown by language id, preview URI by scheme
replacement. -/
def eventHostW : EventHost where
  isMarkdownFile := fun d => d.languageId == "markdown"
  getMarkdownUri := fun u => ⟨"markdown", u.fsPath⟩

/-- A markdown document at `/a/b.md`. -/
def mdDocW : Document := ⟨⟨"file", "/a/b.md"⟩, "markdown"⟩

/-- A plaintext document at `/a/c.txt`. -/
def txtDocW : Document := ⟨⟨"file", "/a/c.txt"⟩, "plaintext"⟩

/-- A concrete click host: identity decoding, file URIs, every open succeeds. -/
def clickHostW : ClickHost where
  parse := fun s => ⟨"file", s⟩
  decodeURIComponent := fun s => s
  opens := fun _ => true

/-- A concrete activation host in which only the style item `bad.css` and the
script item `bad.js` throw. -/
def hActW : ActivateHost where
  uriHost := uriHostW
  styleFails := fun _ s => s == "bad.css"
  scriptFails := fun _ s => s == "bad.js"

/-- An installed extension with no `contributes` block. -/
def extNoContrib : InstalledExtension := ⟨"/e0", none, false, none⟩

/-- An installed extension contributing three styles, of which `bad.css`
throws on registration. -/
def extStylesW : InstalledExtension :=
  ⟨"/e1", some ⟨ContribVal.arr ["a.css", "bad.css", "b.css"], ContribVal.absent, false⟩,
    false, none⟩

/-- An installed extension contributing three scripts, of which `bad.js`
throws on registration. -/
def extScriptsW : InstalledExtension :=
  ⟨"/e3", some ⟨ContribVal.absent, ContribVal.arr ["a.js", "bad.js", "b.js"], false⟩,
    false, none⟩

/-- An installed extension declaring the plugin hook whose activation resolves
but which exposes no exports object, and whose style and script contributions
are present but not arrays. -/
def extPluginNoExports : InstalledExtension :=
  ⟨"/e2", some ⟨ContribVal.notArray, ContribVal.notArray, true⟩, true, none⟩

/-! Claim theorems. -/

/-- C1 (counterexample): with no active editor and every document open
failing, the `_markdown.openDocumentLink` handler for the extensionless path
`/x/y` returns a rejected promise, so a promise rejection does escape the
coordinator to the host. -/
theorem C1_counterexample :
    (openDocumentLink hRejectAll ⟨"/x/y", "frag"⟩).2 = Outcome.rejected := by
  decide

/-- C1 (amended): per-item contribution failures are caught, but the
document-link handler's promise is not rejection-free; it rejects exactly when
the initial `tryOpen` fails and then either the path has no extension and the
`.md` retry also fails, or the path has an extension and the generic
`vscode.open` command fails. -/
theorem C1_openDocumentLink_rejects_iff (h : LinkHost) (args : OpenDocumentLinkArgs) :
    (openDocumentLink h args).2 = Outcome.rejected ↔
      (tryOpen h args.fragment args.path).2 = Outcome.rejected ∧
        ((extname args.path = "" ∧
            (tryOpen h args.fragment (args.path ++ ".md")).2 = Outcome.rejected) ∨
          (extname args.path ≠ "" ∧ h.vscodeOpen args.path = false)) := by
  unfold openDocumentLink openDocumentLinkFallback
  by_cases h1 : (tryOpen h args.fragment args.path).2 = Outcome.resolved
  · simp [h1]
  · have h2 : (tryOpen h args.fragment args.path).2 = Outcome.rejected := by
      cases ho : (tryOpen h args.fragment args.path).2 <;> simp_all
    by_cases h3 : extname args.path = ""
    · simp [h1, h2, h3]
    · simp only [if_neg h1, if_neg h3]
      cases hv : h.vscodeOpen args.path <;> simp [h2, h3, hv]

/-- C2 (counterexample): for the extensionless path `/a/b` with every open
failing, the handler attempts `/a/b` and then `/a/b.md` only — the generic
open-resource fallback is never reached and the returned promise rejects,
contradicting the claim that the chain ends in generic-open with all errors
suppressed. -/
theorem C2_counterexample :
    openDocumentLink hRejectAll ⟨"/a/b", "sec1"⟩ =
      ([LinkCall.openDoc "/a/b", LinkCall.openDoc "/a/b.md"], Outcome.rejected) := by
  decide

/-- C2 (amended): when the initial open fails, an extensionless path is
retried once with `.md` appended and the handler returns that retry's trace
and outcome, never invoking the generic open-resource command; a path with an
extension falls back to the generic open-resource command, whose failure (like
the retry's) rejects the handler's promise rather than being suppressed. -/
theorem C2_fallback_chain (h : LinkHost) (args : OpenDocumentLinkArgs)
    (hfail : (tryOpen h args.fragment args.path).2 = Outcome.rejected) :
    (extname args.path = "" →
      openDocumentLink h args =
        ((tryOpen h args.fragment args.path).1 ++
            (tryOpen h args.fragment (args.path ++ ".md")).1,
          (tryOpen h args.fragment (args.path ++ ".md")).2) ∧
      LinkCall.execVSCodeOpen args.path ∉ (openDocumentLink h args).1) ∧
    (extname args.path ≠ "" →
      openDocumentLink h args =
        ((tryOpen h args.fragment args.path).1 ++ [LinkCall.execVSCodeOpen args.path],
          if h.vscodeOpen args.path then Outcome.resolved else Outcome.rejected)) := by
  have h1 : ¬ (tryOpen h args.fragment args.path).2 = Outcome.resolved := by
    simp [hfail]
  constructor
  · intro hext
    constructor
    · simp [openDocumentLink, openDocumentLinkFallback, h1, hext]
    · simp only [openDocumentLink, openDocumentLinkFallback, if_neg h1, if_pos hext]
      simp [execVSCodeOpen_not_mem_tryOpen]
  · intro hext
    simp [openDocumentLink, openDocumentLinkFallback, h1, hext]

/-- C2 witness: a concrete extensionless path whose two open attempts fail. -/
theorem C2_fallback_chain_witness :
    openDocumentLink hRejectAll ⟨"/w", ""⟩ =
      ((tryOpen hRejectAll "" "/w").1 ++ (tryOpen hRejectAll "" "/w.md").1,
        (tryOpen hRejectAll "" "/w.md").2) ∧
    LinkCall.execVSCodeOpen "/w" ∉ (openDocumentLink hRejectAll ⟨"/w", ""⟩).1 :=
  (C2_fallback_chain hRejectAll ⟨"/w", ""⟩ (by decide)).1 (by decide)

/-- C3: when the active editor already shows a markdown document at the
link's path, the document is not reopened — no open, show, or generic-open
call appears — and the handler resolves; a fragment resolving to a line
yields exactly one reveal-at-top of that line, while a not-found lookup
yields no calls at all. -/
theorem C3_active_editor_fragment_reveal (h : LinkHost) (args : OpenDocumentLinkArgs)
    (doc : Document) (hed : h.activeEditor = some doc)
    (hmd : h.isMarkdownFile doc = true) (hpath : doc.uri.fsPath = args.path) :
    (∀ line, args.fragment ≠ "" → h.tocLookup args.path args.fragment = some line →
      openDocumentLink h args = ([LinkCall.revealAtTop line], Outcome.resolved)) ∧
    (h.tocLookup args.path args.fragment = none →
      openDocumentLink h args = ([], Outcome.resolved)) := by
  have hmatch : activeEditorMatches h args.path = true := by
    simp [activeEditorMatches, hed, hmd, hpath]
  have htry : tryOpen h args.fragment args.path =
      (tryRevealLine h args.path args.fragment, Outcome.resolved) := by
    simp [tryOpen, hmatch]
  constructor
  · intro line hfrag hlook
    simp [openDocumentLink, htry, tryRevealLine, hfrag, hlook]
  · intro hlook
    have hrev : tryRevealLine h args.path args.fragment = [] := by
      unfold tryRevealLine
      split_ifs
      · simp [hlook]
      · rfl
    simp [openDocumentLink, htry, hrev]

/-- C3 witness: the spec's own example — active editor on `/a/b.md`, fragment
`intro` resolving to line 5 — reveals line 5 with no reopen. -/
theorem C3_active_editor_fragment_reveal_witness :
    openDocumentLink hActiveIntro ⟨"/a/b.md", "intro"⟩ =
      ([LinkCall.revealAtTop 5], Outcome.resolved) :=
  (C3_active_editor_fragment_reveal hActiveIntro ⟨"/a/b.md", "intro"⟩
      ⟨⟨"file", "/a/b.md"⟩, "markdown"⟩ rfl (by decide) rfl).1 5 (by decide) (by decide)

/-- C4: a contributed style or script path whose parse carries a scheme is
used verbatim, never joined with the extension's install directory; a bare
path resolves to a file URI of the install directory joined with the path. -/
theorem C4_resolveExtensionResources_spec (h : UriHost) (extensionPath stylePath : String) :
    ((h.parse stylePath).scheme ≠ "" →
      resolveExtensionResources h extensionPath stylePath = h.parse stylePath) ∧
    ((h.parse stylePath).scheme = "" →
      resolveExtensionResources h extensionPath stylePath =
        h.file (h.joinPath extensionPath stylePath)) := by
  unfold resolveExtensionResources
  constructor <;> intro hs <;> simp [hs]

/-- C4 witness: an absolute URL passes through verbatim and a bare relative
path joins with the install directory. -/
theorem C4_resolveExtensionResources_spec_witness :
    resolveExtensionResources uriHostW "/ext" "https://a/x.css" = ⟨"https", "a/x.css"⟩ ∧
    resolveExtensionResources uriHostW "/ext" "style.css" = ⟨"file", "/ext/style.css"⟩ :=
  ⟨(C4_resolveExtensionResources_spec uriHostW "/ext" "https://a/x.css").1 (by decide),
    (C4_resolveExtensionResources_spec uriHostW "/ext" "style.css").2 (by decide)⟩

/-- C5: saving or changing a markdown document triggers exactly one
preview-refresh call carrying the preview URI derived by `getMarkdownUri` from
the document's URI, and the same events on a non-markdown document trigger
none. -/
theorem C5_preview_refresh (h : EventHost) (document : Document)
    (event : TextDocumentChangeEvent) :
    (h.isMarkdownFile document = true →
      onDidSaveTextDocument h document =
        [HostCall.updatePreview (h.getMarkdownUri document.uri)]) ∧
    (h.isMarkdownFile document = false → onDidSaveTextDocument h document = []) ∧
    (h.isMarkdownFile event.document = true →
      onDidChangeTextDocument h event =
        [HostCall.updatePreview (h.getMarkdownUri event.document.uri)]) ∧
    (h.isMarkdownFile event.document = false → onDidChangeTextDocument h event = []) := by
  refine ⟨?_, ?_, ?_, ?_⟩ <;> intro hm <;>
    simp [onDidSaveTextDocument, onDidChangeTextDocument, hm]

/-- C5 witness: a markdown save and change refresh the derived preview once;
a plaintext save and change refresh nothing. -/
theorem C5_preview_refresh_witness :
    onDidSaveTextDocument eventHostW mdDocW =
      [HostCall.updatePreview ⟨"markdown", "/a/b.md"⟩] ∧
    onDidSaveTextDocument eventHostW txtDocW = [] ∧
    onDidChangeTextDocument eventHostW ⟨mdDocW⟩ =
      [HostCall.updatePreview ⟨"markdown", "/a/b.md"⟩] ∧
    onDidChangeTextDocument eventHostW ⟨txtDocW⟩ = [] :=
  ⟨(C5_preview_refresh eventHostW mdDocW ⟨mdDocW⟩).1 (by decide),
    (C5_preview_refresh eventHostW txtDocW ⟨txtDocW⟩).2.1 (by decide),
    (C5_preview_refresh eventHostW mdDocW ⟨mdDocW⟩).2.2.1 (by decide),
    (C5_preview_refresh eventHostW txtDocW ⟨txtDocW⟩).2.2.2 (by decide)⟩

/-- C6: a selection change on a markdown document forwards exactly the
zero-based active line of the first selection to the preview message-post
command together with the derived preview URI; on a non-markdown document the
handler makes no call. -/
theorem C6_selection_sync (h : EventHost) (event : TextEditorSelectionChangeEvent)
    (s : Selection) (rest : List Selection) (hsel : event.selections = s :: rest) :
    (h.isMarkdownFile event.textEditor.document = true →
      onDidChangeTextEditorSelection h event =
        [HostCall.logEvent (h.getMarkdownUri event.textEditor.document.uri),
          HostCall.postPreviewMessage (h.getMarkdownUri event.textEditor.document.uri)
            s.active.line]) ∧
    (h.isMarkdownFile event.textEditor.document = false →
      onDidChangeTextEditorSelection h event = []) := by
  constructor <;> intro hm <;> simp [onDidChangeTextEditorSelection, hm, hsel]

/-- C6 witness: a markdown selection event with active position (9, 4) posts
line 9; a plaintext selection event posts nothing. -/
theorem C6_selection_sync_witness :
    onDidChangeTextEditorSelection eventHostW ⟨⟨mdDocW⟩, [⟨⟨7, 2⟩, ⟨9, 4⟩⟩]⟩ =
      [HostCall.logEvent ⟨"markdown", "/a/b.md"⟩,
        HostCall.postPreviewMessage ⟨"markdown", "/a/b.md"⟩ 9] ∧
    onDidChangeTextEditorSelection eventHostW ⟨⟨txtDocW⟩, [⟨⟨7, 2⟩, ⟨9, 4⟩⟩]⟩ = [] :=
  ⟨(C6_selection_sync eventHostW ⟨⟨mdDocW⟩, [⟨⟨7, 2⟩, ⟨9, 4⟩⟩]⟩
        ⟨⟨7, 2⟩, ⟨9, 4⟩⟩ [] rfl).1 (by decide),
    (C6_selection_sync eventHostW ⟨⟨txtDocW⟩, [⟨⟨7, 2⟩, ⟨9, 4⟩⟩]⟩
        ⟨⟨7, 2⟩, ⟨9, 4⟩⟩ [] rfl).2 (by decide)⟩

/-- C7: on a successful open, the `_markdown.didClick` handler opens the
parsed target, shows it, reveals the floor of the fractional line centered in
the viewport, and then collapses the selection to the start of that same line,
in that order, and its promise resolves. -/
theorem C7_didClick_success (h : ClickHost) (uri : String) (line : ℚ)
    (hopen : h.opens (h.parse (h.decodeURIComponent uri)) = true) :
    didClick h uri line =
      ([ClickCall.openDoc (h.parse (h.decodeURIComponent uri)),
        ClickCall.showDoc (h.parse (h.decodeURIComponent uri)),
        ClickCall.revealLine ⌊line⌋ "center",
        ClickCall.setSelection ⌊line⌋ 0 ⌊line⌋ 0], Outcome.resolved) := by
  simp [didClick, hopen]

/-- C7 witness: a click on `/d.md` at fractional line 7/2 reveals line 3
centered and collapses the selection to (3, 0). -/
theorem C7_didClick_success_witness :
    (⌊(7 / 2 : ℚ)⌋ = 3) ∧
    didClick clickHostW "/d.md" (7 / 2) =
      ([ClickCall.openDoc ⟨"file", "/d.md"⟩,
        ClickCall.showDoc ⟨"file", "/d.md"⟩,
        ClickCall.revealLine ⌊(7 / 2 : ℚ)⌋ "center",
        ClickCall.setSelection ⌊(7 / 2 : ℚ)⌋ 0 ⌊(7 / 2 : ℚ)⌋ 0], Outcome.resolved) :=
  ⟨by norm_num, C7_didClick_success clickHostW "/d.md" (7 / 2) rfl⟩

/-- C8: the contributions loop is per-extension and per-item isolated — an
extension's registrations sit between those of the extensions before and
after it, an extension without a `contributes` block registers nothing, and a
single throwing style or script item is skipped while every other item of the
same extension still registers. -/
theorem C8_contribution_isolation (h : ActivateHost) (pre post : List InstalledExtension)
    (e : InstalledExtension) :
    (registeredStyles h (pre ++ e :: post) =
        registeredStyles h pre ++ stylesOf h e ++ registeredStyles h post ∧
      registeredScripts h (pre ++ e :: post) =
        registeredScripts h pre ++ scriptsOf h e ++ registeredScripts h post) ∧
    (e.contributes = none → stylesOf h e = [] ∧ scriptsOf h e = []) ∧
    (∀ (c : MarkdownContributes) (good1 good2 : List String) (bad : String),
      e.contributes = some c →
      c.previewStyles = ContribVal.arr (good1 ++ bad :: good2) →
      h.styleFails e.extensionPath bad = true →
      (∀ s ∈ good1 ++ good2, h.styleFails e.extensionPath s = false) →
      stylesOf h e =
        (good1 ++ good2).map (resolveExtensionResources h.uriHost e.extensionPath)) ∧
    (∀ (c : MarkdownContributes) (good1 good2 : List String) (bad : String),
      e.contributes = some c →
      c.previewScripts = ContribVal.arr (good1 ++ bad :: good2) →
      h.scriptFails e.extensionPath bad = true →
      (∀ s ∈ good1 ++ good2, h.scriptFails e.extensionPath s = false) →
      scriptsOf h e =
        (good1 ++ good2).map (resolveExtensionResources h.uriHost e.extensionPath)) := by
  refine ⟨⟨?_, ?_⟩, ?_, ?_, ?_⟩
  · simp [registeredStyles]
  · simp [registeredScripts]
  · intro hnone
    simp [stylesOf, scriptsOf, hnone]
  · intro c good1 good2 bad hc hps hbad hok
    have h1 : ∀ s ∈ good1, h.styleFails e.extensionPath s = false :=
      fun s hs => hok s (List.mem_append_left _ hs)
    have h2 : ∀ s ∈ good2, h.styleFails e.extensionPath s = false :=
      fun s hs => hok s (List.mem_append_right _ hs)
    simp only [stylesOf, hc, hps, List.filterMap_append, List.filterMap_cons, hbad,
      if_true, List.map_append, filterMap_styles_no_fail h e.extensionPath good1 h1,
      filterMap_styles_no_fail h e.extensionPath good2 h2]
  · intro c good1 good2 bad hc hps hbad hok
    have h1 : ∀ s ∈ good1, h.scriptFails e.extensionPath s = false :=
      fun s hs => hok s (List.mem_append_left _ hs)
    have h2 : ∀ s ∈ good2, h.scriptFails e.extensionPath s = false :=
      fun s hs => hok s (List.mem_append_right _ hs)
    simp only [scriptsOf, hc, hps, List.filterMap_append, List.filterMap_cons, hbad,
      if_true, List.map_append, filterMap_scripts_no_fail h e.extensionPath good1 h1,
      filterMap_scripts_no_fail h e.extensionPath good2 h2]

/-- C8 witness: an extension without contributions registers nothing, of the
three declared styles of one extension only the throwing `bad.css` is
dropped, and of the three declared scripts of another only the throwing
`bad.js` is dropped. -/
theorem C8_contribution_isolation_witness :
    (stylesOf hActW extNoContrib = [] ∧ scriptsOf hActW extNoContrib = []) ∧
    stylesOf hActW extStylesW =
      ["a.css", "b.css"].map (resolveExtensionResources hActW.uriHost "/e1") ∧
    scriptsOf hActW extScriptsW =
      ["a.js", "b.js"].map (resolveExtensionResources hActW.uriHost "/e3") :=
  ⟨(C8_contribution_isolation hActW [] [] extNoContrib).2.1 rfl,
    (C8_contribution_isolation hActW [] [] extStylesW).2.2.1
      ⟨ContribVal.arr ["a.css", "bad.css", "b.css"], ContribVal.absent, false⟩
      ["a.css"] ["b.css"] "bad.css" rfl rfl (by decide) (by decide),
    (C8_contribution_isolation hActW [] [] extScriptsW).2.2.2
      ⟨ContribVal.absent, ContribVal.arr ["a.js", "bad.js", "b.js"], false⟩
      ["a.js"] ["b.js"] "bad.js" rfl rfl (by decide) (by decide)⟩

/-- C9: the telemetry reporter is constructed exactly when `getPackageInfo`
resolves; when constructed it is pushed onto the subscription list exactly
once, and when metadata is absent the telemetry step yields no reporter and
no subscription while activation proceeds. -/
theorem C9_telemetry_invariant (h : TelemetryHost) :
    ((activateTelemetry h).1.isSome ↔ (getPackageInfo h).isSome) ∧
    (∀ r, (activateTelemetry h).1 = some r →
      (activateTelemetry h).2.count (Subscription.telemetry r) = 1) ∧
    (getPackageInfo h = none → activateTelemetry h = (none, [])) := by
  unfold activateTelemetry
  cases hp : getPackageInfo h with
  | none => simp
  | some pi =>
    refine ⟨by simp, ?_, by simp⟩
    intro r hr
    simp only [Option.some.injEq] at hr
    simp [← hr]

/-- C9 witness: resolved metadata yields one pushed reporter; absent metadata
yields none and an empty subscription list. -/
theorem C9_telemetry_invariant_witness :
    (activateTelemetry ⟨some ⟨some ⟨"markdown", "1.0", "key"⟩⟩⟩).2.count
      (Subscription.telemetry ⟨"markdown", "1.0", "key"⟩) = 1 ∧
    activateTelemetry ⟨none⟩ = (none, []) :=
  ⟨(C9_telemetry_invariant ⟨some ⟨some ⟨"markdown", "1.0", "key"⟩⟩⟩).2.1
      ⟨"markdown", "1.0", "key"⟩ rfl,
    (C9_telemetry_invariant ⟨none⟩).2.2 rfl⟩

/-- C10: a plugin-declaring extension whose activation completes but which
exposes no exports object or no `extendMarkdownIt` function registers nothing
with the engine and leaves the other extensions' registrations untouched; a
`previewStyles` or `previewScripts` value that is present but not an array
registers nothing. -/
theorem C10_plugin_guards (hact : ActivateHost) (pre post : List InstalledExtension)
    (e : InstalledExtension) (c : MarkdownContributes) (hc : e.contributes = some c) :
    (c.markdownItPlugins = true → e.activates = true →
      (e.exports = none ∨ ∃ ex, e.exports = some ex ∧ ex.extendMarkdownIt = none) →
      pluginOf e = none ∧
      pluginActivations (pre ++ e :: post) =
        pluginActivations pre ++ pluginActivations post) ∧
    (c.previewStyles = ContribVal.notArray → stylesOf hact e = []) ∧
    (c.previewScripts = ContribVal.notArray → scriptsOf hact e = []) := by
  refine ⟨?_, ?_, ?_⟩
  · intro hflag hactv hex
    have hnone : pluginOf e = none := by
      rcases hex with h0 | ⟨ex, hexp, hfn⟩
      · simp [pluginOf, hc, hflag, hactv, h0]
      · simp [pluginOf, hc, hflag, hactv, hexp, hfn]
    exact ⟨hnone, by simp [pluginActivations, hnone]⟩
  · intro hna
    simp [stylesOf, hc, hna]
  · intro hna
    simp [scriptsOf, hc, hna]

/-- C10 witness: a plugin-declaring extension that activates with no exports
object registers no plugin, and its non-array style and script values
register nothing. -/
theorem C10_plugin_guards_witness :
    (pluginOf extPluginNoExports = none ∧
      pluginActivations [extPluginNoExports] =
        pluginActivations [] ++ pluginActivations []) ∧
    stylesOf hActW extPluginNoExports = [] ∧
    scriptsOf hActW extPluginNoExports = [] :=
  ⟨(C10_plugin_guards hActW [] [] extPluginNoExports
        ⟨ContribVal.notArray, ContribVal.notArray, true⟩ rfl).1 rfl rfl (Or.inl rfl),
    (C10_plugin_guards hActW [] [] extPluginNoExports
        ⟨ContribVal.notArray, ContribVal.notArray, true⟩ rfl).2.1 rfl,
    (C10_plugin_guards hActW [] [] extPluginNoExports
        ⟨ContribVal.notArray, ContribVal.notArray, true⟩ rfl).2.2 rfl⟩

end MDExt
